import Mathlib

/-!
Shallow embedding of the `InvestmentsPage` component
(`src/unnamed/part_000` of rsaniceto14/investControlFront).

The component holds a list of investments fetched from a remote endpoint,
a loading flag, an optional error message, two filter inputs (a type
filter and a search query), and a 1-based current page index.  Derived
values (`filteredInvestments`, `totalPages`, `paginatedInvestments`) are
recomputed on every render from that state.  Event handlers (fetch
resolution, filter input changes, page navigation, delete resolution)
are embedded as pure state transitions, and the `useEffect` that watches
`currentPage` is embedded as the predicate `triggersFetch`.
-/

/-- The record type of the page (`type Investment` in the source). -/
structure Investment where
  id : Int
  name : String
  type : String
  amount : Int
  date : String
deriving DecidableEq

/-- JavaScript `String.prototype.toLowerCase`, embedded as per-character
case folding over the string's characters. -/
def jsToLower (s : String) : String :=
  ⟨s.data.map Char.toLower⟩

/-- Helper for substring search: does the haystack start with the needle? -/
def matchAt : List Char → List Char → Bool
  | [], _ => true
  | _ :: _, [] => false
  | a :: as, b :: bs => a == b && matchAt as bs

/-- JavaScript `String.prototype.includes`, embedded over character lists:
`listContains needle hay` is true when `needle` occurs contiguously in
`hay`. -/
def listContains (needle : List Char) : List Char → Bool
  | [] => needle.isEmpty
  | b :: bs => matchAt needle (b :: bs) || listContains needle bs

/-- `needle` occurs contiguously inside `hay` (the specification-side
notion of substring containment). -/
def isSubstring (needle hay : List Char) : Prop :=
  ∃ s t, hay = s ++ needle ++ t

/-- The type-filter conjunct of the source filter predicate:
`typeFilter ? investment.type === typeFilter : true` (an empty string is
falsy in JavaScript). -/
def matchesType (typeFilter : String) (inv : Investment) : Bool :=
  if typeFilter = "" then true else inv.type == typeFilter

/-- The search conjunct of the source filter predicate:
`searchQuery ? investment.name.toLowerCase().includes(searchQuery.toLowerCase()) : true`. -/
def matchesSearch (searchQuery : String) (inv : Investment) : Bool :=
  if searchQuery = "" then true
  else listContains (jsToLower searchQuery).data (jsToLower inv.name).data

/-- `filteredInvestments` from the source: the loaded records filtered by
the conjunction of the type and search predicates. -/
def filteredInvestments (investments : List Investment)
    (typeFilter searchQuery : String) : List Investment :=
  investments.filter (fun inv => matchesType typeFilter inv && matchesSearch searchQuery inv)

/-- `itemsPerPage = 5` in the source. -/
def itemsPerPage : Nat := 5

/-- JavaScript `Array.prototype.slice(start, stop)` for the in-range,
non-negative indices used by the component. -/
def jsSlice (l : List Investment) (start stop : Nat) : List Investment :=
  (l.drop start).take (stop - start)

/-- `totalPages = Math.ceil(filteredInvestments.length / itemsPerPage)`,
embedded as ceiling division on naturals. -/
def totalPages (filtered : List Investment) : Nat :=
  (filtered.length + itemsPerPage - 1) / itemsPerPage

/-- `paginatedInvestments = filteredInvestments.slice((currentPage - 1) *
itemsPerPage, currentPage * itemsPerPage)`. -/
def paginatedInvestments (filtered : List Investment) (currentPage : Nat) :
    List Investment :=
  jsSlice filtered ((currentPage - 1) * itemsPerPage) (currentPage * itemsPerPage)

/-- The specification-side filter predicate, word for word: the category
filter is empty or equals the record's category, and the search text is
empty or occurs, case-folded, as a substring of the case-folded name. -/
def specKeeps (typeFilter searchQuery : String) (inv : Investment) : Prop :=
  (typeFilter = "" ∨ inv.type = typeFilter) ∧
    (searchQuery = "" ∨
      isSubstring (jsToLower searchQuery).data (jsToLower inv.name).data)

lemma matchAt_iff (n h : List Char) :
    matchAt n h = true ↔ ∃ t, h = n ++ t := by
  induction n generalizing h with
  | nil =>
    simp [matchAt]
  | cons a as ih =>
    cases h with
    | nil => simp [matchAt]
    | cons b bs =>
      simp only [matchAt, Bool.and_eq_true, beq_iff_eq, ih, List.cons_append,
        List.cons.injEq]
      constructor
      · rintro ⟨hab, t, ht⟩
        exact ⟨t, hab.symm, ht⟩
      · rintro ⟨t, hab, ht⟩
        exact ⟨hab.symm, t, ht⟩

lemma listContains_iff (n h : List Char) :
    listContains n h = true ↔ isSubstring n h := by
  induction h with
  | nil =>
    simp only [listContains, List.isEmpty_iff, isSubstring]
    constructor
    · rintro rfl
      exact ⟨[], [], rfl⟩
    · rintro ⟨s, t, hst⟩
      rcases List.append_eq_nil.mp (List.append_eq_nil.mp hst.symm).1 with ⟨-, h2⟩
      exact h2
  | cons b bs ih =>
    simp only [listContains, Bool.or_eq_true, matchAt_iff, ih, isSubstring]
    constructor
    · rintro (⟨t, ht⟩ | ⟨s, t, hst⟩)
      · exact ⟨[], t, by simp [ht]⟩
      · exact ⟨b :: s, t, by simp [hst]⟩
    · rintro ⟨s, t, hst⟩
      cases s with
      | nil =>
        exact Or.inl ⟨t, by simpa using hst⟩
      | cons c cs =>
        refine Or.inr ⟨cs, t, ?_⟩
        simp only [List.cons_append, List.cons.injEq] at hst
        exact hst.2

lemma matchesType_iff (typeFilter : String) (inv : Investment) :
    matchesType typeFilter inv = true ↔ (typeFilter = "" ∨ inv.type = typeFilter) := by
  unfold matchesType
  by_cases h : typeFilter = "" <;> simp [h]

lemma matchesSearch_iff (searchQuery : String) (inv : Investment) :
    matchesSearch searchQuery inv = true ↔
      (searchQuery = "" ∨
        isSubstring (jsToLower searchQuery).data (jsToLower inv.name).data) := by
  unfold matchesSearch
  by_cases h : searchQuery = "" <;> simp [h, listContains_iff]

/-- `(n + 4) / 5` is the ceiling of the real division `n / 5`: the natural
division formula used in the embedding agrees with `Math.ceil`. -/
lemma natCeilDiv_eq_ceil (n : Nat) :
    (((n + 4) / 5 : Nat) : Int) = ⌈(n : ℚ) / 5⌉ := by
  set m : Nat := (n + 4) / 5 with hm
  have hdm : 5 * m + (n + 4) % 5 = n + 4 := Nat.div_add_mod _ 5
  have hlt : (n + 4) % 5 < 5 := Nat.mod_lt _ (by norm_num)
  have h1 : n ≤ 5 * m := by omega
  have h2 : 5 * m ≤ n + 4 := by omega
  symm
  rw [Int.ceil_eq_iff]
  refine ⟨?_, ?_⟩
  · rw [lt_div_iff₀ (by norm_num : (0 : ℚ) < 5)]
    have h2' : (5 : ℚ) * (m : ℚ) ≤ (n : ℚ) + 4 := by exact_mod_cast h2
    push_cast
    linarith
  · rw [div_le_iff₀ (by norm_num : (0 : ℚ) < 5)]
    have h1' : (n : ℚ) ≤ 5 * (m : ℚ) := by exact_mod_cast h1
    push_cast
    linarith

/-- The component state of `InvestmentsPage`: the `useState` hooks
`investments`, `loading`, `error`, `typeFilter`, `searchQuery` and
`currentPage`. -/
structure PageState where
  investments : List Investment
  loading : Bool
  error : Option String
  typeFilter : String
  searchQuery : String
  currentPage : Nat
deriving DecidableEq

/-- The initial hook values: empty record list, `loading = true` (a fetch
is issued on mount), no error, empty filters, page 1. -/
def initialState : PageState :=
  { investments := [], loading := true, error := none,
    typeFilter := "", searchQuery := "", currentPage := 1 }

/-- The fixed fetch-failure message set by `fetchInvestments`'s catch
branch. -/
def loadErrorMsg : String := "Erro ao carregar investimentos"

/-- The delete-success toast message of `handleDelete`. -/
def deleteOkMsg : String := "Investimento excluído com sucesso"

/-- The delete-failure toast message of `handleDelete`'s catch branch. -/
def deleteErrorMsg : String := "Erro ao excluir investimento"

/-- The discrete events the component reacts to: resolution of an
outstanding page fetch (success with the decoded `content` array, or
failure), the two filter-input `onChange` handlers, the two pagination
button clicks, and resolution of a delete request. -/
inductive Event where
  | fetchSuccess (records : List Investment)
  | fetchFailure
  | setSearch (q : String)
  | setType (t : String)
  | prevPage
  | nextPage
  | deleteSuccess (id : Int)
  | deleteFailure

/-- Derived value: `filteredInvestments` computed from the state. -/
def filteredOf (s : PageState) : List Investment :=
  filteredInvestments s.investments s.typeFilter s.searchQuery

/-- Derived value: `totalPages` computed from the state. -/
def totalPagesOf (s : PageState) : Nat :=
  totalPages (filteredOf s)

/-- Derived value: `paginatedInvestments` computed from the state. -/
def paginatedOf (s : PageState) : List Investment :=
  paginatedInvestments (filteredOf s) s.currentPage

/-- The pure state updates performed by each event handler in the source:
fetch success runs `setInvestments(data.content); setError(null)` and the
`finally` clears `loading`; fetch failure runs `setError(...)` and clears
`loading`; the search and type `onChange` handlers set their input and
reset the page to 1; the pagination buttons apply `Math.max(prev - 1, 1)`
and `Math.min(prev + 1, totalPages)`; delete success filters the record
with the matching id out of `investments`; delete failure only toasts. -/
def handler (s : PageState) : Event → PageState
  | .fetchSuccess records =>
      { s with investments := records, error := none, loading := false }
  | .fetchFailure =>
      { s with error := some loadErrorMsg, loading := false }
  | .setSearch q => { s with searchQuery := q, currentPage := 1 }
  | .setType t => { s with typeFilter := t, currentPage := 1 }
  | .prevPage => { s with currentPage := max (s.currentPage - 1) 1 }
  | .nextPage => { s with currentPage := min (s.currentPage + 1) (totalPagesOf s) }
  | .deleteSuccess id =>
      { s with investments := s.investments.filter (fun inv => inv.id != id) }
  | .deleteFailure => s

/-- The `useEffect(..., [currentPage])` dependency check: a new fetch is
issued exactly when the event changed `currentPage`. -/
def triggersFetch (s : PageState) (e : Event) : Bool :=
  (handler s e).currentPage != s.currentPage

/-- One full event step: the handler's state updates, followed by
`setLoading(true)` when the `currentPage` effect fires and
`fetchInvestments` begins (the begin phase of the load touches nothing
but the loading flag). -/
def step (s : PageState) (e : Event) : PageState :=
  let s' := handler s e
  if triggersFetch s e then { s' with loading := true } else s'

/-- JavaScript truthiness of the `error` state value (`string | null`). -/
def jsTruthy : Option String → Bool
  | none => false
  | some m => !m.isEmpty

/-- The component's main view (table and controls) is rendered only when
neither the loading nor the error early return is taken. -/
def isMainView (s : PageState) : Bool :=
  !s.loading && !jsTruthy s.error

/-- Which events can actually fire in a given state: fetch resolutions
need an outstanding fetch (modelled by the loading flag set by every
issued fetch), and the inputs, pagination buttons and row buttons exist
only in the rendered main view; the pagination buttons additionally
require `totalPages > 1` (the controls block) and their `disabled`
attribute to be off; a delete button belongs to a row of the visible
slice. -/
def enabledB (s : PageState) : Event → Bool
  | .fetchSuccess _ => s.loading
  | .fetchFailure => s.loading
  | .setSearch _ => isMainView s
  | .setType _ => isMainView s
  | .prevPage =>
      isMainView s && decide (1 < totalPagesOf s) && (s.currentPage != 1)
  | .nextPage =>
      isMainView s && decide (1 < totalPagesOf s) && (s.currentPage != totalPagesOf s)
  | .deleteSuccess id =>
      isMainView s && (paginatedOf s).any (fun inv => inv.id == id)
  | .deleteFailure => isMainView s

/-- The states an `InvestmentsPage` session can actually be in: the
initial state, closed under enabled events. -/
inductive Reachable : PageState → Prop
  | init : Reachable initialState
  | next : ∀ {s : PageState} (e : Event), Reachable s → enabledB s e = true →
      Reachable (step s e)

/-- What the component renders: the loading early return, the error early
return, or the main view with the visible rows and, when `totalPages > 1`,
the pagination controls (current page label and total pages). -/
inductive View where
  | loadingView
  | errorView (msg : String)
  | mainView (rows : List Investment) (controls : Option (Nat × Nat))
deriving DecidableEq

/-- The render function of the component: `if (loading) ...; if (error)
...;` then the table over `paginatedInvestments` and the
`totalPages > 1 && ...` pagination block. -/
def render (s : PageState) : View :=
  if s.loading then .loadingView
  else if jsTruthy s.error then .errorView (s.error.getD "")
  else .mainView (paginatedOf s)
    (if 1 < totalPagesOf s then some (s.currentPage, totalPagesOf s) else none)

/-- Discriminator: does a view render the table body (the main view)? -/
def rendersTable : View → Bool
  | .mainView _ _ => true
  | _ => false

/-- The toast notifications of the component. -/
inductive Notice where
  | ok (msg : String)
  | failed (msg : String)
deriving DecidableEq

/-- The toast issued by each event handler: `toast.error` on fetch
failure, `toast.success` / `toast.error` on delete resolution, nothing
otherwise. -/
def notice : Event → Option Notice
  | .fetchFailure => some (.failed loadErrorMsg)
  | .deleteSuccess _ => some (.ok deleteOkMsg)
  | .deleteFailure => some (.failed deleteErrorMsg)
  | _ => none

/-- The begin phase of `fetchInvestments`, before the `fetch` call is
awaited: only `setLoading(true)` runs there. -/
def beginLoad (s : PageState) : PageState :=
  { s with loading := true }

/-- The possible outcomes of one `fetch` of the investments endpoint:
transport failure (the promise rejects), or an HTTP response with a
success flag (`response.ok`) and a body that either decodes to a
`content` array (`some records`) or fails to parse (`none`,
`response.json()` rejects). -/
inductive FetchResult where
  | netError
  | resp (ok : Bool) (body : Option (List Investment))

/-- How `fetchInvestments` dispatches on the fetch outcome: a non-ok
status throws, a body that fails to parse throws, and only an ok status
with a parsed body reaches `setInvestments`/`setError(null)`. -/
def loadResolution : FetchResult → Event
  | .netError => .fetchFailure
  | .resp true (some records) => .fetchSuccess records
  | .resp true none => .fetchFailure
  | .resp false _ => .fetchFailure

/-- A complete run of `fetchInvestments` from a given state for a given
fetch outcome: the begin phase followed by the resolution handler. -/
def runLoad (s : PageState) (r : FetchResult) : PageState :=
  handler (beginLoad s) (loadResolution r)

/-- The failure condition of a load, as the specification words it: the
endpoint responded with a non-success status, or the transport failed
(network error or malformed response body). -/
def loadFails : FetchResult → Bool
  | .netError => true
  | .resp ok body => !ok || body.isNone

/-- A concrete six-record response used to exercise the pagination. -/
def sixRecords : List Investment :=
  [⟨1, "alpha", "stock", 1, "2024-01-01"⟩,
   ⟨2, "beta", "stock", 2, "2024-01-02"⟩,
   ⟨3, "gamma", "fund", 3, "2024-01-03"⟩,
   ⟨4, "delta", "fund", 4, "2024-01-04"⟩,
   ⟨5, "epsilon", "stock", 5, "2024-01-05"⟩,
   ⟨6, "zeta", "crypto", 6, "2024-01-06"⟩]

/-- The state after the mount fetch resolved with `sixRecords`. -/
def mainState : PageState :=
  { investments := sixRecords, loading := false, error := none,
    typeFilter := "", searchQuery := "", currentPage := 1 }

/-- `mainState` after navigating to page 2 and the triggered page-2 fetch
resolving with the same six records. -/
def page2State : PageState :=
  { investments := sixRecords, loading := false, error := none,
    typeFilter := "", searchQuery := "", currentPage := 2 }

/-- A state carrying a fetch error, used to test the load begin phase. -/
def erroredState : PageState :=
  { investments := [], loading := false, error := some loadErrorMsg,
    typeFilter := "", searchQuery := "", currentPage := 1 }

lemma step_investments (s : PageState) (e : Event) :
    (step s e).investments = (handler s e).investments := by
  unfold step
  split <;> rfl

lemma step_currentPage (s : PageState) (e : Event) :
    (step s e).currentPage = (handler s e).currentPage := by
  unfold step
  split <;> rfl

lemma step_typeFilter (s : PageState) (e : Event) :
    (step s e).typeFilter = (handler s e).typeFilter := by
  unfold step
  split <;> rfl

lemma step_searchQuery (s : PageState) (e : Event) :
    (step s e).searchQuery = (handler s e).searchQuery := by
  unfold step
  split <;> rfl

lemma paginatedOf_step (s : PageState) (e : Event) :
    paginatedOf (step s e) = paginatedOf (handler s e) := by
  unfold step
  split <;> rfl

/-- Claim C2: for every loaded record list and filter state, the Filter
Engine returns a subsequence of the loaded list preserving the original
relative order; a record is kept exactly when the category filter is
empty or equals the record's category and the search text is empty or
occurs case-folded as a substring of the case-folded name; and with both
filter fields empty the result is exactly the loaded list. -/
theorem c2_filter_engine (R : List Investment) (t q : String) :
    (filteredInvestments R t q).Sublist R
  ∧ (∀ inv, inv ∈ filteredInvestments R t q ↔ inv ∈ R ∧ specKeeps t q inv)
  ∧ filteredInvestments R "" "" = R := by
  refine ⟨List.filter_sublist R, fun inv => ?_, ?_⟩
  · simp only [filteredInvestments, List.mem_filter, Bool.and_eq_true,
      matchesType_iff, matchesSearch_iff, specKeeps]
  · rw [filteredInvestments]
    apply List.filter_eq_self.mpr
    intro inv _
    simp [matchesType, matchesSearch]

/-- Claim C3: for every filtered list, `totalPages` is the ceiling of the
filtered count divided by the fixed page size 5 (so it is 0 exactly when
the filtered list is empty), and for every page `p ≥ 1` the visible slice
is `filtered[(p-1)*5 : p*5]`; a page whose start index reaches the
filtered count yields an empty slice. -/
theorem c3_pagination_engine (f : List Investment) (p : Nat) (h : 1 ≤ p) :
    ((totalPages f : Int) = ⌈(f.length : ℚ) / (itemsPerPage : ℚ)⌉)
  ∧ (totalPages f = 0 ↔ f.length = 0)
  ∧ paginatedInvestments f p = jsSlice f ((p - 1) * itemsPerPage) (p * itemsPerPage)
  ∧ (f.length ≤ (p - 1) * itemsPerPage → paginatedInvestments f p = []) := by
  refine ⟨?_, ?_, rfl, ?_⟩
  · have h4 : f.length + 5 - 1 = f.length + 4 := by omega
    rw [totalPages, itemsPerPage, h4]
    have := natCeilDiv_eq_ceil f.length
    norm_num at this ⊢
    exact this
  · rw [totalPages, itemsPerPage]
    omega
  · intro hle
    rw [paginatedInvestments, jsSlice, List.drop_eq_nil_of_le hle, List.take_nil]

/-- Claim C4: the previous-page handler maps the page to `max(p-1, 1)`
and the next-page handler to `min(p+1, totalPages)`, and whenever the
stored page lies in `[1, totalPages]` both results stay in
`[1, totalPages]`; recomputation of the filtered set (a successful
delete) never modifies the stored page index, and any page whose start
index lies beyond the filtered count yields an empty slice. -/
theorem c4_navigation (s : PageState) (h1 : 1 ≤ s.currentPage)
    (h2 : s.currentPage ≤ totalPagesOf s) :
    (handler s Event.prevPage).currentPage = max (s.currentPage - 1) 1
  ∧ (handler s Event.nextPage).currentPage = min (s.currentPage + 1) (totalPagesOf s)
  ∧ 1 ≤ (handler s Event.prevPage).currentPage
  ∧ (handler s Event.prevPage).currentPage ≤ totalPagesOf s
  ∧ 1 ≤ (handler s Event.nextPage).currentPage
  ∧ (handler s Event.nextPage).currentPage ≤ totalPagesOf s
  ∧ (∀ id, (step s (Event.deleteSuccess id)).currentPage = s.currentPage)
  ∧ (∀ p, totalPagesOf s < p → paginatedInvestments (filteredOf s) p = []) := by
  refine ⟨rfl, rfl, ?_, ?_, ?_, ?_, ?_, ?_⟩
  · show 1 ≤ max (s.currentPage - 1) 1
    omega
  · show max (s.currentPage - 1) 1 ≤ totalPagesOf s
    omega
  · show 1 ≤ min (s.currentPage + 1) (totalPagesOf s)
    omega
  · show min (s.currentPage + 1) (totalPagesOf s) ≤ totalPagesOf s
    omega
  · intro id
    rw [step_currentPage]
    rfl
  · intro p hp
    rw [totalPagesOf, totalPages, itemsPerPage] at hp
    have hle : (filteredOf s).length ≤ (p - 1) * itemsPerPage := by
      rw [itemsPerPage]
      omega
    rw [paginatedInvestments, jsSlice, List.drop_eq_nil_of_le hle, List.take_nil]

/-- Claim C5: when a fetch fails, the resulting state has a non-null
error and a cleared loading flag, the previously loaded records are left
in place, and the component renders the error view instead of the table
body. -/
theorem c5_fetch_failure (s : PageState) :
    (step s Event.fetchFailure).error.isSome = true
  ∧ (step s Event.fetchFailure).loading = false
  ∧ (step s Event.fetchFailure).investments = s.investments
  ∧ render (step s Event.fetchFailure) = View.errorView loadErrorMsg
  ∧ rendersTable (render (step s Event.fetchFailure)) = false := by
  have hstep : step s Event.fetchFailure =
      { s with error := some loadErrorMsg, loading := false } := by
    unfold step triggersFetch handler
    simp
  have htruthy : jsTruthy (some loadErrorMsg) = true := by decide
  have hrender : render (step s Event.fetchFailure) = View.errorView loadErrorMsg := by
    rw [hstep, render]
    simp [htruthy]
  refine ⟨?_, ?_, ?_, hrender, ?_⟩
  · rw [hstep]
    rfl
  · rw [hstep]
  · rw [hstep]
  · rw [hrender]
    rfl

/-- Claim C6: after a successful remote delete of `id`, the in-memory
record list becomes the previous list with the records matching `id`
filtered out — a subsequence of the old list keeping every other record
and its relative order — while the filter inputs and the current page are
untouched, no fetch is triggered, and a success toast is issued. -/
theorem c6_delete_success (s : PageState) (id : Int) :
    (step s (Event.deleteSuccess id)).investments
      = s.investments.filter (fun inv => inv.id != id)
  ∧ ((step s (Event.deleteSuccess id)).investments).Sublist s.investments
  ∧ (∀ inv, inv ∈ (step s (Event.deleteSuccess id)).investments ↔
      inv ∈ s.investments ∧ (inv.id == id) = false)
  ∧ (step s (Event.deleteSuccess id)).typeFilter = s.typeFilter
  ∧ (step s (Event.deleteSuccess id)).searchQuery = s.searchQuery
  ∧ (step s (Event.deleteSuccess id)).currentPage = s.currentPage
  ∧ triggersFetch s (Event.deleteSuccess id) = false
  ∧ notice (Event.deleteSuccess id) = some (Notice.ok deleteOkMsg) := by
  have hinv : (step s (Event.deleteSuccess id)).investments
      = s.investments.filter (fun inv => inv.id != id) := by
    rw [step_investments]
    rfl
  refine ⟨hinv, ?_, ?_, ?_, ?_, ?_, ?_, rfl⟩
  · rw [hinv]
    exact List.filter_sublist s.investments
  · intro inv
    rw [hinv]
    simp [List.mem_filter]
  · rw [step_typeFilter]
    rfl
  · rw [step_searchQuery]
    rfl
  · rw [step_currentPage]
    rfl
  · unfold triggersFetch handler
    simp

/-- Claim C7: a failed remote delete issues a failure toast and leaves
the whole component state — records, loading flag, error value, filters
and page — completely unchanged. -/
theorem c7_delete_failure (s : PageState) :
    step s Event.deleteFailure = s
  ∧ notice Event.deleteFailure = some (Notice.failed deleteErrorMsg) := by
  refine ⟨?_, rfl⟩
  unfold step triggersFetch handler
  simp

/-- Claim C8 (amended): the begin phase of a load sets `loading = true`
and leaves the error value and the record list untouched; the error is
cleared to null only after a successful response, and is set on a
transport failure. -/
theorem c8_load_begin_amended (s : PageState) (records : List Investment) :
    (beginLoad s).loading = true
  ∧ (beginLoad s).error = s.error
  ∧ (beginLoad s).investments = s.investments
  ∧ (runLoad s (FetchResult.resp true (some records))).error = none
  ∧ (runLoad s FetchResult.netError).error = some loadErrorMsg :=
  ⟨rfl, rfl, rfl, rfl, rfl⟩

/-- Claim C8, counterexample: starting a load from a state whose error is
set, the phase before the fetch is invoked (which only runs
`setLoading(true)`) does not clear the error — `setError(null)` runs only
after a successful response, so the claim's "clears the error to null
before invoking the fetch" fails at this input. -/
theorem c8_load_begin_counterexample :
    (beginLoad erroredState).loading = true
  ∧ (beginLoad erroredState).error = some loadErrorMsg := by
  exact ⟨rfl, rfl⟩

/-- Claim C9: a load ends in the error state exactly when the response
status is non-success or the transport fails (network error or a body
that fails to parse); in every case loading is cleared, and the record
list is replaced only by a success status with a parsed body. -/
theorem c9_load_errors (s : PageState) (r : FetchResult) :
    (runLoad s r).error.isSome = loadFails r
  ∧ (runLoad s r).loading = false
  ∧ (runLoad s r).investments =
      (match r with
        | FetchResult.resp true (some records) => records
        | _ => s.investments) := by
  rcases r with _ | ⟨ok, body⟩
  · exact ⟨rfl, rfl, rfl⟩
  · rcases ok <;> rcases body with _ | records <;> exact ⟨rfl, rfl, rfl⟩

/-- Claim C10: in the rendered main view the pagination controls are
present exactly when `totalPages > 1`; in particular they are suppressed
both when the filtered set is empty and when it fits on a single page. -/
theorem c10_pagination_controls (s : PageState) (rows : List Investment)
    (controls : Option (Nat × Nat))
    (h : render s = View.mainView rows controls) :
    (controls.isSome = true ↔ 1 < totalPagesOf s)
  ∧ (totalPagesOf s ≤ 1 → controls = none) := by
  unfold render at h
  split_ifs at h with hl he htp
  · injection h with h1 h2
    subst h2
    simp [htp]
  · injection h with h1 h2
    subst h2
    simp
    omega

/-- Claim C1, counterexample: the state reached by loading six records,
clicking next page, and the page-2 fetch resolving is a reachable state
in which the search input is rendered and editing it (which resets the
page to 1) changes `currentPage`, so the `useEffect` watching
`currentPage` fires and a network fetch is triggered — refuting "never
triggers a network fetch, for every filter-input change and every
reachable state". -/
theorem c1_filter_refetch_counterexample :
    Reachable page2State
  ∧ enabledB page2State (Event.setSearch "x") = true
  ∧ triggersFetch page2State (Event.setSearch "x") = true := by
  refine ⟨?_, by decide, by decide⟩
  have h0 : Reachable initialState := Reachable.init
  have h1 := Reachable.next (Event.fetchSuccess sixRecords) h0 (by decide)
  have e1 : step initialState (Event.fetchSuccess sixRecords) = mainState := by decide
  rw [e1] at h1
  have h2 := Reachable.next Event.nextPage h1 (by decide)
  have h3 := Reachable.next (Event.fetchSuccess sixRecords) h2 (by decide)
  have e3 : step (step mainState Event.nextPage) (Event.fetchSuccess sixRecords)
      = page2State := by decide
  rw [e3] at h3
  exact h3

/-- Claim C1 (amended): a filter-input change re-runs the Filter and
Pagination Engines synchronously over the records already in memory (the
record list is untouched and the new visible slice is derived from it at
page 1), and the recomputation itself fetches nothing; however, because
the handler resets the page to 1, the change triggers a network fetch
exactly when the stored page was not 1. -/
theorem c1_filter_change_amended (s : PageState) (q t : String) :
    (step s (Event.setSearch q)).investments = s.investments
  ∧ (step s (Event.setType t)).investments = s.investments
  ∧ (step s (Event.setSearch q)).searchQuery = q
  ∧ (step s (Event.setType t)).typeFilter = t
  ∧ (step s (Event.setSearch q)).currentPage = 1
  ∧ (step s (Event.setType t)).currentPage = 1
  ∧ triggersFetch s (Event.setSearch q) = (s.currentPage != 1)
  ∧ triggersFetch s (Event.setType t) = (s.currentPage != 1)
  ∧ paginatedOf (step s (Event.setSearch q))
      = paginatedInvestments (filteredInvestments s.investments s.typeFilter q) 1
  ∧ paginatedOf (step s (Event.setType t))
      = paginatedInvestments (filteredInvestments s.investments t s.searchQuery) 1 := by
  have hbne : ∀ c : Nat, ((1 : Nat) != c) = (c != 1) := by
    intro c
    by_cases hc : c = 1
    · subst hc
      rfl
    · have hl : ((1 : Nat) != c) = true := by
        simp only [bne_iff_ne, ne_eq]
        omega
      have hr : (c != 1) = true := by
        simp only [bne_iff_ne, ne_eq]
        omega
      rw [hl, hr]
  refine ⟨?_, ?_, ?_, ?_, ?_, ?_, ?_, ?_, ?_, ?_⟩
  · rw [step_investments]
    rfl
  · rw [step_investments]
    rfl
  · rw [step_searchQuery]
    rfl
  · rw [step_typeFilter]
    rfl
  · rw [step_currentPage]
    rfl
  · rw [step_currentPage]
    rfl
  · rw [triggersFetch]
    exact hbne s.currentPage
  · rw [triggersFetch]
    exact hbne s.currentPage
  · rw [paginatedOf_step]
    rfl
  · rw [paginatedOf_step]
    rfl

/-- Witness for `c3_pagination_engine` at the six-record list and
page 2. -/
theorem c3_pagination_engine_witness :
    1 ≤ 2
  ∧ (((totalPages sixRecords : Int) = ⌈(sixRecords.length : ℚ) / (itemsPerPage : ℚ)⌉)
    ∧ (totalPages sixRecords = 0 ↔ sixRecords.length = 0)
    ∧ paginatedInvestments sixRecords 2
        = jsSlice sixRecords ((2 - 1) * itemsPerPage) (2 * itemsPerPage)
    ∧ (sixRecords.length ≤ (2 - 1) * itemsPerPage →
        paginatedInvestments sixRecords 2 = [])) :=
  ⟨by decide, c3_pagination_engine sixRecords 2 (by decide)⟩

/-- Witness for `c4_navigation` at the six-record main-view state on
page 1 (where `totalPages = 2`). -/
theorem c4_navigation_witness :
    (1 ≤ mainState.currentPage ∧ mainState.currentPage ≤ totalPagesOf mainState)
  ∧ ((handler mainState Event.prevPage).currentPage
        = max (mainState.currentPage - 1) 1
    ∧ (handler mainState Event.nextPage).currentPage
        = min (mainState.currentPage + 1) (totalPagesOf mainState)
    ∧ 1 ≤ (handler mainState Event.prevPage).currentPage
    ∧ (handler mainState Event.prevPage).currentPage ≤ totalPagesOf mainState
    ∧ 1 ≤ (handler mainState Event.nextPage).currentPage
    ∧ (handler mainState Event.nextPage).currentPage ≤ totalPagesOf mainState
    ∧ (∀ id, (step mainState (Event.deleteSuccess id)).currentPage
        = mainState.currentPage)
    ∧ (∀ p, totalPagesOf mainState < p →
        paginatedInvestments (filteredOf mainState) p = [])) :=
  ⟨⟨by decide, by decide⟩, c4_navigation mainState (by decide) (by decide)⟩

/-- Witness for `c10_pagination_controls` at the six-record main-view
state on page 1, whose rendered controls are `some (1, 2)`. -/
theorem c10_pagination_controls_witness :
    ((some ((1 : Nat), (2 : Nat))).isSome = true ↔ 1 < totalPagesOf mainState)
  ∧ (totalPagesOf mainState ≤ 1 → (some ((1 : Nat), (2 : Nat)) : Option (Nat × Nat)) = none) :=
  c10_pagination_controls mainState (paginatedOf mainState) (some (1, 2)) (by decide)
